import Mathlib

/-
Verification of the PhloxAR `math3d` module (src/PhloxAR/loader/math3d.py).

Embedding conventions, applied uniformly:
* Python floats are embedded as real numbers; numeric claims stated "within
  floating tolerance" are settled exactly over ℝ.
* The source mixes `@property` and method call syntax inconsistently
  (e.g. `v.magnitude()` where `magnitude` is a property, `args[0].copy()`
  where `copy` is a property).  Such accesses are embedded as the value they
  denote (the magnitude, the copy); the incidental `TypeError` of calling a
  non-callable is not modelled, since every claim is about the algorithms.
* Raised exceptions that are part of the algorithms' logic — the zero-length
  direction check of `Line2.__init__` (inherited by `Ray2`/`LineSegment2`),
  the collinearity check of `Plane.__init__`, `assert` statements, the broken
  tuple unpacking in `_connect_line2_line2`'s parallel branch, and a branch
  that leaves local variables unbound — are modelled explicitly as `.err`
  (for geometric results) or `Option.none` (for constructors).
* Python truthiness on vectors (`if not self.v`) means "all components zero";
  on floats (`if d:`) it means `d ≠ 0`.
* Connect/intersect results distinguish `.val` (a geometric value), `.norel`
  (the source returns `None`), and `.err` (the source raises).
-/

namespace Phlox

noncomputable section

/-- 2D coordinates shared by `Vector2` and `Point2`. -/
@[ext]
structure V2 where
  x : ℝ
  y : ℝ

/-- 3D coordinates shared by `Vector3` and `Point3`. -/
@[ext]
structure V3 where
  x : ℝ
  y : ℝ
  z : ℝ

def sub2 (a b : V2) : V2 := ⟨a.x - b.x, a.y - b.y⟩

def add2 (a b : V2) : V2 := ⟨a.x + b.x, a.y + b.y⟩

def dot2 (a b : V2) : ℝ := a.x * b.x + a.y * b.y

/-- `Vector2.magnitude_squared` -/
def magsq2 (v : V2) : ℝ := v.x ^ 2 + v.y ^ 2

/-- `Vector2.magnitude` -/
def mag2 (v : V2) : ℝ := Real.sqrt (v.x ^ 2 + v.y ^ 2)

/-- `Vector2.normalize` (in place): divides by the magnitude unless it is zero. -/
def normalize2 (v : V2) : V2 :=
  let d := mag2 v
  if d = 0 then v else ⟨v.x / d, v.y / d⟩

/-- `Vector2.normalized`: returns the scaled copy when the magnitude is
non-zero, else a copy of the receiver. -/
def normalized2 (v : V2) : V2 :=
  let d := mag2 v
  if d = 0 then v else ⟨v.x / d, v.y / d⟩

def sub3 (a b : V3) : V3 := ⟨a.x - b.x, a.y - b.y, a.z - b.z⟩

def add3 (a b : V3) : V3 := ⟨a.x + b.x, a.y + b.y, a.z + b.z⟩

def neg3 (a : V3) : V3 := ⟨-a.x, -a.y, -a.z⟩

def dot3 (a b : V3) : ℝ := a.x * b.x + a.y * b.y + a.z * b.z

def cross3 (a b : V3) : V3 :=
  ⟨a.y * b.z - a.z * b.y, a.z * b.x - a.x * b.z, a.x * b.y - a.y * b.x⟩

/-- `Vector3.magnitude_squared` -/
def magsq3 (v : V3) : ℝ := v.x ^ 2 + v.y ^ 2 + v.z ^ 2

/-- `Vector3.magnitude` -/
def mag3 (v : V3) : ℝ := Real.sqrt (v.x ^ 2 + v.y ^ 2 + v.z ^ 2)

/-- `Vector3.normalize` (in place): divides by the magnitude unless it is zero. -/
def normalize3 (v : V3) : V3 :=
  let d := mag3 v
  if d = 0 then v else ⟨v.x / d, v.y / d, v.z / d⟩

/-- `Vector3.normalized`: the source computes `Vector3(x/d, y/d, z/d)` but
discards that expression (its result is never returned) and returns
`self.copy`, i.e. the receiver's value, for every input. -/
def normalized3 (v : V3) : V3 := v

/- ## Result-kind model for `+` and `-` (Vector2/Point2, Vector3/Point3).

`Point2`/`Point3` subclass `Vector2`/`Vector3`; the arithmetic operators
inspect the operands' classes to pick the result class.  Only the class
("kind") and the coordinates matter. -/

/-- Which class a 2D/3D value carries: `Vector*` or `Point*`. -/
inductive VKind where
  | vec : VKind
  | pt : VKind
deriving DecidableEq

/-- A 2D value together with its class. -/
structure KV2 where
  kind : VKind
  x : ℝ
  y : ℝ

/-- A 3D value together with its class. -/
structure KV3 where
  kind : VKind
  x : ℝ
  y : ℝ
  z : ℝ

/-- `Vector2.__add__` for vector-like operands: result class is `Vector2`
when both operands have the same class, else `Point2`. -/
def addK2 (a b : KV2) : KV2 :=
  ⟨if a.kind = b.kind then .vec else .pt, a.x + b.x, a.y + b.y⟩

/-- `Vector2.__sub__`: the guard reads `isinstance(object, Vector2)` — the
builtin `object`, not `other` — which is always false, so control always
reaches the sequence branch and the result class is always `Vector2`
(the `_class` chosen in the dead branch is never used). -/
def subK2 (a b : KV2) : KV2 := ⟨.vec, a.x - b.x, a.y - b.y⟩

/-- `Vector3.__add__`: same class ⇒ `Vector3`, different ⇒ `Point3`. -/
def addK3 (a b : KV3) : KV3 :=
  ⟨if a.kind = b.kind then .vec else .pt, a.x + b.x, a.y + b.y, a.z + b.z⟩

/-- `Vector3.__sub__`: the branch computes `_class` (Vector3 when classes
match, else Point3) but the return statement ignores it and always builds a
`Vector3`. -/
def subK3 (a b : KV3) : KV3 := ⟨.vec, a.x - b.x, a.y - b.y, a.z - b.z⟩

/- ## Line/segment primitives and result types -/

/-- The three lifecycle variants of the line family: `Line*`, `Ray*`,
`LineSegment*`, differing only in `_u_in`. -/
inductive LineKind where
  | line : LineKind
  | ray : LineKind
  | seg : LineKind
deriving DecidableEq

/-- `_u_in`: `Line` accepts every `u`; `Ray` accepts `u >= 0.0`;
`LineSegment` accepts `0.0 <= u <= 1.0`. -/
def uIn (k : LineKind) (u : ℝ) : Bool :=
  match k with
  | .line => true
  | .ray => decide (0 ≤ u)
  | .seg => decide (0 ≤ u ∧ u ≤ 1)

/-- The parameter-clamping idiom of the connect algorithms:
`if not L._u_in(u): u = max(min(u, 1.0), 0.0)`. -/
def clampParam (k : LineKind) (u : ℝ) : ℝ :=
  if uIn k u then u else max (min u 1) 0

/-- Modelled from the spec: the boundary the spec calls "the nearest valid
boundary (`0` or `1` for segments, `0` for rays)" for an out-of-range `u`.
Compared against `clampParam` in C2. -/
def specNearestBoundary (k : LineKind) (u : ℝ) : ℝ :=
  match k with
  | .line => u
  | .ray => 0
  | .seg => if u < 0 then 0 else 1

/-- A 2D line-family value: `p + u·v` filtered by the kind's `_u_in`. -/
structure L2 where
  kind : LineKind
  p : V2
  v : V2

/-- A 3D line-family value. -/
structure L3 where
  kind : LineKind
  p : V3
  v : V3

/-- `LineSegment2` as stored: base point `p` and difference vector `v`
(endpoints `p` and `p + v`). -/
@[ext]
structure Seg2 where
  p : V2
  v : V2

/-- `LineSegment3` as stored. -/
@[ext]
structure Seg3 where
  p : V3
  v : V3

/-- Result of a connect/intersect query: a value, `None` (no relation), or a
raised exception. -/
inductive CRes (α : Type) where
  | val : α → CRes α
  | norel : CRes α
  | err : CRes α

/-- Whether a result is a geometric value. -/
def CRes.isVal {α : Type} : CRes α → Bool
  | .val _ => true
  | .norel => false
  | .err => false

/-- Result of line–circle / line–sphere intersection: a tangent point, a
chord segment, `None`, or a raised exception. -/
inductive LCRes where
  | pt : V2 → LCRes
  | seg : Seg2 → LCRes
  | norel : LCRes
  | err : LCRes

/-- `LineSegment2(Point2 a, Point2 b)`: the inherited `Line2.__init__` raises
`AttributeError('Line has zero-length vector')` when `b - a` is zero. -/
def mkSeg2 (a b : V2) : CRes Seg2 :=
  if b.x - a.x = 0 ∧ b.y - a.y = 0 then .err else .val ⟨a, sub2 b a⟩

/-- `LineSegment3(Point3 a, Point3 b)`: `Line3.__init__` has its zero-length
check commented out and never raises for point/point arguments. -/
def mkSeg3 (a b : V3) : Seg3 := ⟨a, sub3 b a⟩

/-- `LineSegment2._swap`: `p` becomes `p2`, `v` is negated. -/
def swapSeg2 (s : Seg2) : Seg2 := ⟨add2 s.p s.v, ⟨-s.v.x, -s.v.y⟩⟩

/-- `LineSegment3._swap`. -/
def swapSeg3 (s : Seg3) : Seg3 := ⟨add3 s.p s.v, neg3 s.v⟩

/-- Reverse a connect result (used to state the symmetry claims). -/
def revC2 : CRes Seg2 → CRes Seg2
  | .val s => .val (swapSeg2 s)
  | .norel => .norel
  | .err => .err

/-- `Circle`: center and radius. -/
structure Circ where
  c : V2
  r : ℝ

/-- `Sphere`: center and radius. -/
structure Sph where
  c : V3
  r : ℝ

/-- `Plane`: stored normal `n` and offset `k` with `n·p = k`. -/
structure Plane where
  n : V3
  k : ℝ

/- ## Constructors with their degeneracy checks (§4.3 / C5) -/

/-- `Line2.__init__` with a point and a direction, shared by `Line2`, `Ray2`
and `LineSegment2` (neither subclass overrides `__init__`): raises when the
direction vector is zero. -/
def mkLine2 (k : LineKind) (p v : V2) : Option L2 :=
  if v.x = 0 ∧ v.y = 0 then none else some ⟨k, p, v⟩

/-- `Line2.__init__` with two points: direction is the difference. -/
def mkLine2pp (k : LineKind) (p1 p2 : V2) : Option L2 :=
  mkLine2 k p1 (sub2 p2 p1)

/-- `Line3.__init__` with a point and a direction, shared by `Line3`, `Ray3`
and `LineSegment3`: the zero-length check is commented out in the source, so
construction always succeeds. -/
def mkLine3 (k : LineKind) (p v : V3) : Option L3 := some ⟨k, p, v⟩

/-- `Line3.__init__` with two points. -/
def mkLine3pp (k : LineKind) (p1 p2 : V3) : Option L3 :=
  mkLine3 k p1 (sub3 p2 p1)

/-- `Plane.__init__` from three points: normal is the normalized cross
product of the edge vectors; raises `AttributeError('Points on plane are
colinear')` when that normal is zero. -/
def mkPlanePoints (p1 p2 p3 : V3) : Option Plane :=
  let n := normalize3 (cross3 (sub3 p2 p1) (sub3 p3 p1))
  if n.x = 0 ∧ n.y = 0 ∧ n.z = 0 then none
  else some ⟨n, dot3 n p1⟩

/-- `Plane.__init__` from a normal and an offset: the stored normal is
`args[0].normalized()`, which (per `normalized3`) is just a copy of the
input; zero input normals are rejected. -/
def mkPlaneNormalOffset (n0 : V3) (k : ℝ) : Option Plane :=
  let n := normalized3 n0
  if n.x = 0 ∧ n.y = 0 ∧ n.z = 0 then none else some ⟨n, k⟩

/- ## Pairwise algorithms (§4.5)

Dispatch recap: `A.intersect(B)` calls `B._intersect_T(A)` and
`A.connect(B)` calls `B._connect_T(A)`, so for two 2D line-family values
`A.intersect(B) = _intersect_line2_line2(B, A)` and
`A.connect(B) = _connect_line2_line2(A, B)`. -/

/-- `_intersect_line2_line2`. -/
def intersect_line2_line2 (A B : L2) : CRes V2 :=
  let d := B.v.y * A.v.x - B.v.x * A.v.y
  if d = 0 then .norel
  else
    let dy := A.p.y - B.p.y
    let dx := A.p.x - B.p.x
    let ua := (B.v.x * dy - B.v.y * dx) / d
    if uIn A.kind ua then
      let ub := (A.v.x * dy - A.v.y * dx) / d
      if uIn B.kind ub then
        .val ⟨A.p.x + ua * A.v.x, A.p.y + ua * A.v.y⟩
      else .norel
    else .norel

/-- `_connect_point2_line2`: orthogonal projection with the clamp idiom; the
`assert d != 0` is an error, and the final `LineSegment2` construction can
raise when the point lies on the line. -/
def connect_point2_line2 (P : V2) (L : L2) : CRes Seg2 :=
  let d := magsq2 L.v
  if d = 0 then .err
  else
    let u := clampParam L.kind (((P.x - L.p.x) * L.v.x + (P.y - L.p.y) * L.v.y) / d)
    mkSeg2 P ⟨L.p.x + u * L.v.x, L.p.y + u * L.v.y⟩

/-- `_connect_line2_line2`.  In the parallel branch with a bounded second
operand the source does `p1, p2 = _connect_point2_line2(B.p, A)` — unpacking
a `LineSegment2`, which is not iterable — and so raises (`.err`). -/
def connect_line2_line2 (A B : L2) : CRes Seg2 :=
  let d := B.v.y * A.v.x - B.v.x * A.v.y
  if d = 0 then
    if B.kind = .ray ∨ B.kind = .seg then .err
    else connect_point2_line2 A.p B
  else
    let dy := A.p.y - B.p.y
    let dx := A.p.x - B.p.x
    let ua := clampParam A.kind ((B.v.x * dy - B.v.y * dx) / d)
    let ub := clampParam B.kind ((A.v.x * dy - A.v.y * dx) / d)
    mkSeg2 ⟨A.p.x + ua * A.v.x, A.p.y + ua * A.v.y⟩
           ⟨B.p.x + ub * B.v.x, B.p.y + ub * B.v.y⟩

/-- The determinant `d` computed by the line2–line2 algorithms. -/
def line2Det (A B : L2) : ℝ := B.v.y * A.v.x - B.v.x * A.v.y

/-- The unconstrained solution parameter `ua` of the line2–line2
algorithms. -/
def line2Ua (A B : L2) : ℝ :=
  (B.v.x * (A.p.y - B.p.y) - B.v.y * (A.p.x - B.p.x)) / line2Det A B

/-- The unconstrained solution parameter `ub` of the line2–line2
algorithms. -/
def line2Ub (A B : L2) : ℝ :=
  (A.v.x * (A.p.y - B.p.y) - A.v.y * (A.p.x - B.p.x)) / line2Det A B

/-- The denominator of `_connect_line3_line3`. -/
def line3Denom (A B : L3) : ℝ :=
  magsq3 A.v * magsq3 B.v - dot3 B.v A.v ^ 2

/-- The unconstrained `ua` of `_connect_line3_line3`. -/
def line3Ua (A B : L3) : ℝ :=
  (dot3 (sub3 A.p B.p) B.v * dot3 B.v A.v - dot3 (sub3 A.p B.p) A.v * magsq3 B.v) /
    line3Denom A B

/-- The `ub` of `_connect_line3_line3`, computed from the (already clamped)
`ua` that is passed in. -/
def line3Ub (A B : L3) (ua : ℝ) : ℝ :=
  (dot3 (sub3 A.p B.p) B.v + dot3 B.v A.v * ua) / magsq3 B.v

/-- The quadratic coefficient `a` of `_intersect_line2_circle`:
`L.v.magnitude_squared()`. -/
def lcA (L : L2) : ℝ := magsq2 L.v

/-- The quadratic coefficient `b` of `_intersect_line2_circle`. -/
def lcB (L : L2) (C : Circ) : ℝ :=
  2 * (L.v.x * (L.p.x - C.c.x) + L.v.y * (L.p.y - C.c.y))

/-- The quadratic coefficient `c` of `_intersect_line2_circle`. -/
def lcC (L : L2) (C : Circ) : ℝ :=
  magsq2 C.c + magsq2 L.p - 2 * dot2 C.c L.p - C.r ^ 2

/-- The discriminant `det = b**2 - 4*a*c` of `_intersect_line2_circle`. -/
def lcDet (L : L2) (C : Circ) : ℝ := lcB L C ^ 2 - 4 * lcA L * lcC L C

/-- `_intersect_line2_circle`: quadratic in `u`; out-of-range roots are
clamped (not rejected); equal (clamped) roots yield a single point. -/
def intersect_line2_circle (L : L2) (C : Circ) : LCRes :=
  if lcDet L C < 0 then .norel
  else
    let sq := Real.sqrt (lcDet L C)
    let u1 := clampParam L.kind ((-lcB L C + sq) / (2 * lcA L))
    let u2 := clampParam L.kind ((-lcB L C - sq) / (2 * lcA L))
    if u1 = u2 then .pt ⟨L.p.x + u1 * L.v.x, L.p.y + u1 * L.v.y⟩
    else
      match mkSeg2 ⟨L.p.x + u1 * L.v.x, L.p.y + u1 * L.v.y⟩
                   ⟨L.p.x + u2 * L.v.x, L.p.y + u2 * L.v.y⟩ with
      | .val s => .seg s
      | _ => .err

/-- The quadratic coefficient `a` of `_intersect_line3_sphere`. -/
def lsA (L : L3) : ℝ := magsq3 L.v

/-- The quadratic coefficient `b` of `_intersect_line3_sphere`. -/
def lsB (L : L3) (S : Sph) : ℝ :=
  2 * (L.v.x * (L.p.x - S.c.x) + L.v.y * (L.p.y - S.c.y) + L.v.z * (L.p.z - S.c.z))

/-- The quadratic coefficient `c` of `_intersect_line3_sphere`. -/
def lsC (L : L3) (S : Sph) : ℝ :=
  magsq3 S.c + magsq3 L.p - 2 * dot3 S.c L.p - S.r ^ 2

/-- The discriminant of `_intersect_line3_sphere`. -/
def lsDet (L : L3) (S : Sph) : ℝ := lsB L S ^ 2 - 4 * lsA L * lsC L S

/-- `_intersect_line3_sphere`: same quadratic as the 2D case but, unlike
`_intersect_line2_circle`, with no `u1 == u2` tangency check — it always
builds a `LineSegment3` (which tolerates zero length). -/
def intersect_line3_sphere (L : L3) (S : Sph) : CRes Seg3 :=
  if lsDet L S < 0 then .norel
  else
    let sq := Real.sqrt (lsDet L S)
    let u1 := clampParam L.kind ((-lsB L S + sq) / (2 * lsA L))
    let u2 := clampParam L.kind ((-lsB L S - sq) / (2 * lsA L))
    .val (mkSeg3 ⟨L.p.x + u1 * L.v.x, L.p.y + u1 * L.v.y, L.p.z + u1 * L.v.z⟩
                 ⟨L.p.x + u2 * L.v.x, L.p.y + u2 * L.v.y, L.p.z + u2 * L.v.z⟩)

/-- `Point2._connect_point2(self, other)` returns
`LineSegment2(other, self)`; the constructor raises when the points are
equal. -/
def connect_point2_point2 (self other : V2) : CRes Seg2 :=
  mkSeg2 other self

/-- `Point3._connect_point3(self, other)`: returns
`LineSegment3(other, self)` when the points differ, else `None`. -/
def connect_point3_point3 (self other : V3) : CRes Seg3 :=
  if self.x = other.x ∧ self.y = other.y ∧ self.z = other.z then .norel
  else .val (mkSeg3 other self)

/-- The sign-selection block shared verbatim by `_connect_circle_circle` and
`_connect_sphere_sphere`; `none` models falling through every branch, which
leaves `s1`, `s2` unbound. -/
def signSelect (r1 r2 d : ℝ) : Option (ℝ × ℝ) :=
  if r1 ≥ r2 ∧ d < r1 then some (1, 1)
  else if r2 > r1 ∧ d < r2 then some (-1, -1)
  else if d ≥ r1 ∧ d ≥ r2 then some (1, -1)
  else none

/-- `_connect_circle_circle`. -/
def connect_circle_circle (A B : Circ) : CRes Seg2 :=
  let v := sub2 B.c A.c
  let d := mag2 v
  match signSelect A.r B.r d with
  | none => .err
  | some s =>
    let vn := normalize2 v
    mkSeg2 ⟨A.c.x + s.1 * vn.x * A.r, A.c.y + s.1 * vn.y * A.r⟩
           ⟨B.c.x + s.2 * vn.x * B.r, B.c.y + s.2 * vn.y * B.r⟩

/-- `_connect_sphere_sphere` (`LineSegment3` construction cannot raise). -/
def connect_sphere_sphere (A B : Sph) : CRes Seg3 :=
  let v := sub3 B.c A.c
  let d := mag3 v
  match signSelect A.r B.r d with
  | none => .err
  | some s =>
    let vn := normalize3 v
    .val (mkSeg3 ⟨A.c.x + s.1 * vn.x * A.r, A.c.y + s.1 * vn.y * A.r,
                  A.c.z + s.1 * vn.z * A.r⟩
                 ⟨B.c.x + s.2 * vn.x * B.r, B.c.y + s.2 * vn.y * B.r,
                  B.c.z + s.2 * vn.z * B.r⟩)

/-- `_connect_point3_line3`. -/
def connect_point3_line3 (P : V3) (L : L3) : CRes Seg3 :=
  let d := magsq3 L.v
  if d = 0 then .err
  else
    let u := clampParam L.kind
      (((P.x - L.p.x) * L.v.x + (P.y - L.p.y) * L.v.y + (P.z - L.p.z) * L.v.z) / d)
    .val (mkSeg3 P ⟨L.p.x + u * L.v.x, L.p.y + u * L.v.y, L.p.z + u * L.v.z⟩)

/-- `_connect_line3_line3`: the `assert A.v and B.v` raises on a zero
direction; in the non-parallel branch `ub` is computed from the already
clamped `ua`, then clamped itself. -/
def connect_line3_line3 (A B : L3) : CRes Seg3 :=
  if (A.v.x = 0 ∧ A.v.y = 0 ∧ A.v.z = 0) ∨ (B.v.x = 0 ∧ B.v.y = 0 ∧ B.v.z = 0) then
    .err
  else
    let p13 := sub3 A.p B.p
    let d1343 := dot3 p13 B.v
    let d4321 := dot3 B.v A.v
    let d1321 := dot3 p13 A.v
    let d4343 := magsq3 B.v
    let denom := magsq3 A.v * d4343 - d4321 ^ 2
    if denom = 0 then
      if B.kind = .ray ∨ B.kind = .seg then
        match connect_point3_line3 B.p A with
        | .val s => .val (swapSeg3 s)
        | r => r
      else connect_point3_line3 A.p B
    else
      let ua := clampParam A.kind ((d1343 * d4321 - d1321 * d4343) / denom)
      let ub := clampParam B.kind ((d1343 + d4321 * ua) / d4343)
      .val (mkSeg3 ⟨A.p.x + ua * A.v.x, A.p.y + ua * A.v.y, A.p.z + ua * A.v.z⟩
                   ⟨B.p.x + ub * B.v.x, B.p.y + ub * B.v.y, B.p.z + ub * B.v.z⟩)

/-- `_connect_point3_plane`: `n = plane.n.normalized()` is (per
`normalized3`) a copy of the stored normal; the result is
`LineSegment3(p, Point3(p - n*d))` with `d = p·n - k`. -/
def connect_point3_plane (p : V3) (P : Plane) : CRes Seg3 :=
  let n := normalized3 P.n
  let d := dot3 p P.n - P.k
  .val (mkSeg3 p ⟨p.x - n.x * d, p.y - n.y * d, p.z - n.z * d⟩)

/-- `_connect_line3_plane`: parallel ⇒ project an endpoint; crossing out of
range ⇒ project the clamped endpoint; crossing in range ⇒ `None`. -/
def connect_line3_plane (L : L3) (P : Plane) : CRes Seg3 :=
  let d := dot3 P.n L.v
  if d = 0 then connect_point3_plane L.p P
  else
    let u := (P.k - dot3 P.n L.p) / d
    if uIn L.kind u then .norel
    else
      let u2 := max (min u 1) 0
      connect_point3_plane ⟨L.p.x + u2 * L.v.x, L.p.y + u2 * L.v.y, L.p.z + u2 * L.v.z⟩ P

/-- `_intersect_line3_plane`: parallel or out-of-range parameter ⇒ `None`. -/
def intersect_line3_plane (L : L3) (P : Plane) : CRes V3 :=
  let d := dot3 P.n L.v
  if d = 0 then .norel
  else
    let u := (P.k - dot3 P.n L.p) / d
    if uIn L.kind u then
      .val ⟨L.p.x + u * L.v.x, L.p.y + u * L.v.y, L.p.z + u * L.v.z⟩
    else .norel

/- ## Quaternion interpolation (`Quaternion.new_interpolate`) -/

/-- Quaternion `(w, x, y, z)`. -/
@[ext]
structure Quat where
  w : ℝ
  x : ℝ
  y : ℝ
  z : ℝ

/-- The 4-component dot product computed by `new_interpolate`. -/
def qdot (a b : Quat) : ℝ := a.w * b.w + a.x * b.x + a.y * b.y + a.z * b.z

/-- `Quaternion.conjugated`: negates the imaginary components only. -/
def conjugated (q : Quat) : Quat := ⟨q.w, -q.x, -q.y, -q.z⟩

/-- Full negation of a quaternion (what the spec's "negate one quaternion"
denotes; not what the source does). -/
def qneg (q : Quat) : Quat := ⟨-q.w, -q.x, -q.y, -q.z⟩

/-- The body of `new_interpolate` after the sign/clamp handling of
`costheta`: small `theta` returns the endpoint `q2`; small `sintheta`
returns the fixed componentwise midpoint; otherwise the sine-ratio blend. -/
def slerpCore (q1 q2 : Quat) (c t : ℝ) : Quat :=
  let th := Real.arccos c
  if |th| < 0.01 then q2
  else
    let s := Real.sqrt (1 - c * c)
    if |s| < 0.01 then
      ⟨(q1.w + q2.w) * 0.5, (q1.x + q2.x) * 0.5, (q1.y + q2.y) * 0.5,
       (q1.z + q2.z) * 0.5⟩
    else
      let r1 := Real.sin ((1 - t) * th) / s
      let r2 := Real.sin (t * th) / s
      ⟨q1.w * r1 + q2.w * r2, q1.x * r1 + q2.x * r2, q1.y * r1 + q2.y * r2,
       q1.z * r1 + q2.z * r2⟩

/-- `Quaternion.new_interpolate`: when the dot product is negative it is
negated and `q1` is replaced by `q1.conjugated()`; a dot product above one
is clamped to one. -/
def new_interpolate (q1 q2 : Quat) (t : ℝ) : Quat :=
  let c := qdot q1 q2
  if c < 0 then slerpCore (conjugated q1) q2 (-c) t
  else if c > 1 then slerpCore q1 q2 1 t
  else slerpCore q1 q2 c t

/-- Modelled from the spec: identical to `new_interpolate` except that, as
the spec's words say, the negative-dot branch negates `q1` (all four
components) instead of conjugating it.  Used only to compare with the
source's behaviour in C7. -/
def new_interpolate_specNegate (q1 q2 : Quat) (t : ℝ) : Quat :=
  let c := qdot q1 q2
  if c < 0 then slerpCore (qneg q1) q2 (-c) t
  else if c > 1 then slerpCore q1 q2 1 t
  else slerpCore q1 q2 c t

/- Helper lemmas about magnitudes. -/

theorem mag2_eq_zero_iff (v : V2) : mag2 v = 0 ↔ v.x = 0 ∧ v.y = 0 := by
  unfold mag2
  rw [Real.sqrt_eq_zero']
  constructor
  · intro h
    constructor <;> nlinarith [sq_nonneg v.x, sq_nonneg v.y]
  · rintro ⟨hx, hy⟩
    rw [hx, hy]; norm_num

theorem mag3_eq_zero_iff (v : V3) : mag3 v = 0 ↔ v.x = 0 ∧ v.y = 0 ∧ v.z = 0 := by
  unfold mag3
  rw [Real.sqrt_eq_zero']
  constructor
  · intro h
    refine ⟨?_, ?_, ?_⟩ <;>
      nlinarith [sq_nonneg v.x, sq_nonneg v.y, sq_nonneg v.z]
  · rintro ⟨hx, hy, hz⟩
    rw [hx, hy, hz]; norm_num

theorem mag2_normalize2 (v : V2) (h : mag2 v ≠ 0) : mag2 (normalize2 v) = 1 := by
  have hsq : mag2 v ^ 2 = v.x ^ 2 + v.y ^ 2 := by
    unfold mag2
    exact Real.sq_sqrt (by positivity)
  unfold normalize2
  rw [if_neg h]
  unfold mag2 at *
  have hd : Real.sqrt (v.x ^ 2 + v.y ^ 2) ≠ 0 := h
  have hpos : 0 < v.x ^ 2 + v.y ^ 2 := Real.sqrt_ne_zero'.mp hd
  have : (v.x / Real.sqrt (v.x ^ 2 + v.y ^ 2)) ^ 2 +
      (v.y / Real.sqrt (v.x ^ 2 + v.y ^ 2)) ^ 2 = 1 := by
    rw [div_pow, div_pow, div_add_div_same, hsq, div_self (ne_of_gt hpos)]
  rw [this, Real.sqrt_one]

theorem mag3_normalize3 (v : V3) (h : mag3 v ≠ 0) : mag3 (normalize3 v) = 1 := by
  have hsq : mag3 v ^ 2 = v.x ^ 2 + v.y ^ 2 + v.z ^ 2 := by
    unfold mag3
    exact Real.sq_sqrt (by positivity)
  unfold normalize3
  rw [if_neg h]
  unfold mag3 at *
  have hpos : 0 < v.x ^ 2 + v.y ^ 2 + v.z ^ 2 := Real.sqrt_ne_zero'.mp h
  have : (v.x / Real.sqrt (v.x ^ 2 + v.y ^ 2 + v.z ^ 2)) ^ 2 +
      (v.y / Real.sqrt (v.x ^ 2 + v.y ^ 2 + v.z ^ 2)) ^ 2 +
      (v.z / Real.sqrt (v.x ^ 2 + v.y ^ 2 + v.z ^ 2)) ^ 2 = 1 := by
    rw [div_pow, div_pow, div_pow, div_add_div_same, div_add_div_same, hsq,
      div_self (ne_of_gt hpos)]
  rw [this, Real.sqrt_one]

theorem mag2_normalized2 (v : V2) (h : mag2 v ≠ 0) : mag2 (normalized2 v) = 1 :=
  mag2_normalize2 v h

theorem normalize2_of_ne (v : V2) (h : mag2 v ≠ 0) :
    normalize2 v = ⟨v.x / mag2 v, v.y / mag2 v⟩ := by
  unfold normalize2
  rw [if_neg h]

theorem normalize3_of_ne (v : V3) (h : mag3 v ≠ 0) :
    normalize3 v = ⟨v.x / mag3 v, v.y / mag3 v, v.z / mag3 v⟩ := by
  unfold normalize3
  rw [if_neg h]

theorem normalize2_idem (v : V2) (h : mag2 v ≠ 0) :
    normalize2 (normalize2 v) = normalize2 v := by
  have h1 : mag2 (normalize2 v) = 1 := mag2_normalize2 v h
  rw [normalize2_of_ne (normalize2 v) (by rw [h1]; norm_num), h1]
  ext <;> simp

theorem normalize3_idem (v : V3) (h : mag3 v ≠ 0) :
    normalize3 (normalize3 v) = normalize3 v := by
  have h1 : mag3 (normalize3 v) = 1 := mag3_normalize3 v h
  rw [normalize3_of_ne (normalize3 v) (by rw [h1]; norm_num), h1]
  ext <;> simp

/-- C8: for any non-zero Vector2 or Vector3, the in-place `normalize`
produces a vector of magnitude exactly 1 and is idempotent; on the zero
vector it is a no-op. -/
theorem C8_normalize_unit_idempotent :
    (∀ v : V2, ¬(v.x = 0 ∧ v.y = 0) →
      mag2 (normalize2 v) = 1 ∧ normalize2 (normalize2 v) = normalize2 v) ∧
    (∀ v : V3, ¬(v.x = 0 ∧ v.y = 0 ∧ v.z = 0) →
      mag3 (normalize3 v) = 1 ∧ normalize3 (normalize3 v) = normalize3 v) ∧
    normalize2 ⟨0, 0⟩ = ⟨0, 0⟩ ∧ normalize3 ⟨0, 0, 0⟩ = ⟨0, 0, 0⟩ := by
  refine ⟨?_, ?_, ?_, ?_⟩
  · intro v hv
    have h : mag2 v ≠ 0 := fun h0 => hv ((mag2_eq_zero_iff v).mp h0)
    exact ⟨mag2_normalize2 v h, normalize2_idem v h⟩
  · intro v hv
    have h : mag3 v ≠ 0 := fun h0 => hv ((mag3_eq_zero_iff v).mp h0)
    exact ⟨mag3_normalize3 v h, normalize3_idem v h⟩
  · unfold normalize2 mag2
    norm_num
  · unfold normalize3 mag3
    norm_num

/-- C8 witness: the theorem applied to the concrete non-zero vectors
`(3, 4)` and `(1, 2, 2)`. -/
theorem C8_witness :
    (¬((3 : ℝ) = 0 ∧ (4 : ℝ) = 0)) ∧
    (mag2 (normalize2 ⟨3, 4⟩) = 1 ∧
      normalize2 (normalize2 ⟨3, 4⟩) = normalize2 ⟨3, 4⟩) ∧
    (mag3 (normalize3 ⟨1, 2, 2⟩) = 1 ∧
      normalize3 (normalize3 ⟨1, 2, 2⟩) = normalize3 ⟨1, 2, 2⟩) :=
  ⟨by norm_num,
   C8_normalize_unit_idempotent.1 ⟨3, 4⟩ (by norm_num),
   C8_normalize_unit_idempotent.2.1 ⟨1, 2, 2⟩ (by norm_num)⟩

/-- C10: `Vector3.normalized` returns the receiver's own value for every
input (it never rescales), while the in-place `Vector3.normalize` and
`Vector2.normalized` do produce unit vectors on non-zero input. -/
theorem C10_normalized3_returns_copy :
    (∀ v : V3, normalized3 v = v) ∧
    (∀ v : V2, ¬(v.x = 0 ∧ v.y = 0) → mag2 (normalized2 v) = 1) ∧
    (∀ v : V3, ¬(v.x = 0 ∧ v.y = 0 ∧ v.z = 0) → mag3 (normalize3 v) = 1) := by
  refine ⟨fun v => rfl, ?_, ?_⟩
  · intro v hv
    exact mag2_normalized2 v (fun h0 => hv ((mag2_eq_zero_iff v).mp h0))
  · intro v hv
    exact mag3_normalize3 v (fun h0 => hv ((mag3_eq_zero_iff v).mp h0))

/-- C10 witness: `Vector3.normalized` on the non-unit vector `(2, 3, 6)`
returns `(2, 3, 6)` itself, while `Vector2.normalized` on `(6, 8)` has
magnitude 1. -/
theorem C10_witness :
    normalized3 ⟨2, 3, 6⟩ = ⟨2, 3, 6⟩ ∧
    (¬((6 : ℝ) = 0 ∧ (8 : ℝ) = 0)) ∧
    mag2 (normalized2 ⟨6, 8⟩) = 1 ∧
    mag3 (normalize3 ⟨2, 3, 6⟩) = 1 :=
  ⟨C10_normalized3_returns_copy.1 ⟨2, 3, 6⟩,
   by norm_num,
   C10_normalized3_returns_copy.2.1 ⟨6, 8⟩ (by norm_num),
   C10_normalized3_returns_copy.2.2 ⟨2, 3, 6⟩ (by norm_num)⟩

/-- C4: evaluation of the arithmetic result-kind rules at the failing
inputs.  `Point2(1,2) - Vector2(3,4)` and `Point3(1,2,3) - Vector3(1,1,1)`
both produce Vector-kind results (the claim requires Point), because
`Vector2.__sub__` tests `isinstance(object, Vector2)` instead of `other`
and `Vector3.__sub__` ignores the `_class` it computed.  Addition and
Point − Point do follow the claimed rules. -/
theorem C4_sub_kind_at_failing_input :
    (subK2 ⟨.pt, 1, 2⟩ ⟨.vec, 3, 4⟩).kind = .vec ∧
    (subK3 ⟨.pt, 1, 2, 3⟩ ⟨.vec, 1, 1, 1⟩).kind = .vec ∧
    (addK2 ⟨.pt, 1, 2⟩ ⟨.vec, 3, 4⟩).kind = .pt ∧
    (subK2 ⟨.pt, 1, 2⟩ ⟨.pt, 3, 4⟩).kind = .vec ∧
    (addK2 ⟨.vec, 1, 2⟩ ⟨.vec, 3, 4⟩).kind = .vec := by
  refine ⟨rfl, rfl, ?_, rfl, ?_⟩ <;> simp [addK2]

/-- Normalizing a vector yields the zero vector exactly when the input was
the zero vector. -/
theorem normalize3_zero_iff (v : V3) :
    ((normalize3 v).x = 0 ∧ (normalize3 v).y = 0 ∧ (normalize3 v).z = 0) ↔
      v.x = 0 ∧ v.y = 0 ∧ v.z = 0 := by
  by_cases h : mag3 v = 0
  · have hz := (mag3_eq_zero_iff v).mp h
    unfold normalize3
    rw [if_pos h]
  · rw [normalize3_of_ne v h]
    constructor
    · rintro ⟨hx, hy, hz⟩
      exact absurd ((mag3_eq_zero_iff v).mpr
        ⟨by field_simp at hx; exact hx, by field_simp at hy; exact hy,
         by field_simp at hz; exact hz⟩) h
    · rintro ⟨hx, hy, hz⟩
      exact absurd ((mag3_eq_zero_iff v).mpr ⟨hx, hy, hz⟩) h

/-- C5 counterexample: a plain `Line3` with a zero-length direction vector
is accepted without error (its check is commented out in the source), and a
`Ray2`/`LineSegment2` with a zero-length direction is rejected (the check
sits in `Line2.__init__`, which both subclasses inherit) — each fact
contradicts the claim at a concrete input. -/
theorem C5_counterexample :
    mkLine3 .line ⟨0, 0, 0⟩ ⟨0, 0, 0⟩ = some ⟨.line, ⟨0, 0, 0⟩, ⟨0, 0, 0⟩⟩ ∧
    mkLine2 .ray ⟨0, 0⟩ ⟨0, 0⟩ = none ∧
    mkLine2 .seg ⟨1, 1⟩ ⟨0, 0⟩ = none := by
  refine ⟨rfl, ?_, ?_⟩ <;> simp [mkLine2]

/-- C5 amended: the zero-direction check is made by `Line2.__init__` and so
applies to all 2D line-family values, Ray2 and LineSegment2 included; the 3D
family never checks (`Line3.__init__`'s check is commented out), so plain
`Line3` also tolerates a zero direction; `Plane` construction fails exactly
when the three points are collinear (zero cross product) or the supplied
normal is zero. -/
theorem C5_construction_checks :
    (∀ (k : LineKind) (p v : V2), mkLine2 k p v = none ↔ v.x = 0 ∧ v.y = 0) ∧
    (∀ (k : LineKind) (p v : V3), mkLine3 k p v = some ⟨k, p, v⟩) ∧
    (∀ p1 p2 p3 : V3, mkPlanePoints p1 p2 p3 = none ↔
      ((cross3 (sub3 p2 p1) (sub3 p3 p1)).x = 0 ∧
       (cross3 (sub3 p2 p1) (sub3 p3 p1)).y = 0 ∧
       (cross3 (sub3 p2 p1) (sub3 p3 p1)).z = 0)) ∧
    (∀ (n : V3) (k : ℝ), mkPlaneNormalOffset n k = none ↔
      n.x = 0 ∧ n.y = 0 ∧ n.z = 0) ∧
    (∀ (p1 p2 : V3) (t : ℝ),
      mkPlanePoints p1 p2 ⟨p1.x + t * (p2.x - p1.x), p1.y + t * (p2.y - p1.y),
        p1.z + t * (p2.z - p1.z)⟩ = none) := by
  have hplane : ∀ p1 p2 p3 : V3, mkPlanePoints p1 p2 p3 = none ↔
      ((cross3 (sub3 p2 p1) (sub3 p3 p1)).x = 0 ∧
       (cross3 (sub3 p2 p1) (sub3 p3 p1)).y = 0 ∧
       (cross3 (sub3 p2 p1) (sub3 p3 p1)).z = 0) := by
    intro p1 p2 p3
    unfold mkPlanePoints
    constructor
    · intro h
      by_cases hc : (normalize3 (cross3 (sub3 p2 p1) (sub3 p3 p1))).x = 0 ∧
          (normalize3 (cross3 (sub3 p2 p1) (sub3 p3 p1))).y = 0 ∧
          (normalize3 (cross3 (sub3 p2 p1) (sub3 p3 p1))).z = 0
      · exact (normalize3_zero_iff _).mp hc
      · rw [if_neg hc] at h
        exact absurd h (by simp)
    · intro h
      rw [if_pos ((normalize3_zero_iff _).mpr h)]
  refine ⟨?_, fun k p v => rfl, hplane, ?_, ?_⟩
  · intro k p v
    unfold mkLine2
    constructor
    · intro h
      by_cases hv : v.x = 0 ∧ v.y = 0
      · exact hv
      · rw [if_neg hv] at h
        exact absurd h (by simp)
    · intro h
      rw [if_pos h]
  · intro n k
    unfold mkPlaneNormalOffset normalized3
    constructor
    · intro h
      by_cases hn : n.x = 0 ∧ n.y = 0 ∧ n.z = 0
      · exact hn
      · rw [if_neg hn] at h
        exact absurd h (by simp)
    · intro h
      rw [if_pos h]
  · intro p1 p2 t
    rw [hplane]
    unfold cross3 sub3
    refine ⟨?_, ?_, ?_⟩ <;> dsimp only <;> ring

/-- C5 witness: the amended theorem applied at concrete inputs — a plain
`Line2` with direction `(0,0)` is rejected, a `Ray3` with direction
`(0,0,0)` is accepted, and a plane through the collinear points `(0,0,0)`,
`(1,0,0)`, `(2,0,0)` is rejected. -/
theorem C5_witness :
    mkLine2 .line ⟨7, 7⟩ ⟨0, 0⟩ = none ∧
    mkLine3 .ray ⟨1, 2, 3⟩ ⟨0, 0, 0⟩ = some ⟨.ray, ⟨1, 2, 3⟩, ⟨0, 0, 0⟩⟩ ∧
    mkPlanePoints ⟨0, 0, 0⟩ ⟨1, 0, 0⟩ ⟨0 + 2 * (1 - 0), 0 + 2 * (0 - 0), 0 + 2 * (0 - 0)⟩ = none :=
  ⟨(C5_construction_checks.1 .line ⟨7, 7⟩ ⟨0, 0⟩).mpr (by norm_num),
   C5_construction_checks.2.1 .ray ⟨1, 2, 3⟩ ⟨0, 0, 0⟩,
   C5_construction_checks.2.2.2.2 ⟨0, 0, 0⟩ ⟨1, 0, 0⟩ 2⟩

/-- The sign-selection block never falls through: some branch always
applies. -/
theorem signSelect_isSome (r1 r2 d : ℝ) : (signSelect r1 r2 d).isSome = true := by
  unfold signSelect
  split_ifs with h1 h2 h3
  · rfl
  · rfl
  · rfl
  · exfalso
    push_neg at h1 h2 h3
    rcases le_or_lt r2 r1 with hr | hr
    · exact absurd (h3 (h1 hr)) (not_lt.mpr (le_trans hr (h1 hr)))
    · exact absurd (h3 (le_trans hr.le (h2 hr))) (not_lt.mpr (h2 hr))

/-- C9 counterexample: the negation of the claim.  At every input with
coincident centers (`d == 0`) some branch of the shared sign-selection block
does apply — `signSelect` never falls through — and concentric sphere–sphere
connect accordingly always produces a segment value. -/
theorem C9_counterexample :
    (fun r1 r2 : ℝ => (signSelect r1 r2 0).isSome) = (fun _ _ : ℝ => true) ∧
    (fun cx cy cz r1 r2 : ℝ =>
        (connect_sphere_sphere ⟨⟨cx, cy, cz⟩, r1⟩ ⟨⟨cx, cy, cz⟩, r2⟩).isVal) =
      (fun _ _ _ _ _ : ℝ => true) := by
  constructor
  · funext r1 r2
    exact signSelect_isSome r1 r2 0
  · funext cx cy cz r1 r2
    unfold connect_sphere_sphere
    have hz : sub3 ⟨cx, cy, cz⟩ ⟨cx, cy, cz⟩ = ⟨0, 0, 0⟩ := by
      unfold sub3; ext <;> ring
    rw [hz]
    rcases hopt : signSelect r1 r2 (mag3 ⟨0, 0, 0⟩) with _ | s
    · exact absurd (signSelect_isSome r1 r2 (mag3 ⟨0, 0, 0⟩)) (by rw [hopt]; simp)
    · simp [hopt, CRes.isVal]

/-- C9 amended: the sign-selection logic of `_connect_circle_circle` /
`_connect_sphere_sphere` is exhaustive — for every combination of radii and
center distance, including `d == 0`, one of the three branches applies, so
`s1` and `s2` are always assigned. -/
theorem C9_sign_selection_total :
    ∀ r1 r2 d : ℝ, (signSelect r1 r2 d).isSome = true := fun r1 r2 d =>
  signSelect_isSome r1 r2 d

/-- C6 counterexample: connecting the point `(1,2,3)` to an equal point
returns `None` (no relation), not a zero-length segment as the claim
requires. -/
theorem C6_counterexample :
    connect_point3_point3 ⟨1, 2, 3⟩ ⟨1, 2, 3⟩ = .norel ∧
    (CRes.norel : CRes Seg3) ≠ .val ⟨⟨1, 2, 3⟩, ⟨0, 0, 0⟩⟩ := by
  constructor
  · unfold connect_point3_point3
    norm_num
  · simp

/-- C6 amended: connect does use `None` to signal touching in two cases —
`Point3` to an equal `Point3` returns no relation, and a `Line3` crossing a
`Plane` within its valid parameter range returns no relation — while
`Point2` to an equal `Point2` raises (a zero-length `LineSegment2` cannot be
constructed); distinct points still get an ordinary connecting segment. -/
theorem C6_touching_behaviour :
    (∀ p : V3, connect_point3_point3 p p = .norel) ∧
    (∀ p q : V3, ¬(p.x = q.x ∧ p.y = q.y ∧ p.z = q.z) →
      connect_point3_point3 p q = .val (mkSeg3 q p)) ∧
    (∀ p : V2, connect_point2_point2 p p = .err) ∧
    (∀ (L : L3) (P : Plane), dot3 P.n L.v ≠ 0 →
      uIn L.kind ((P.k - dot3 P.n L.p) / dot3 P.n L.v) = true →
      connect_line3_plane L P = .norel) := by
  refine ⟨?_, ?_, ?_, ?_⟩
  · intro p
    unfold connect_point3_point3
    simp
  · intro p q h
    unfold connect_point3_point3
    rw [if_neg h]
  · intro p
    unfold connect_point2_point2 mkSeg2
    norm_num
  · intro L P hd hu
    unfold connect_line3_plane
    rw [if_neg hd, if_pos hu]

/-- C6 witness: the amended theorem applied at concrete inputs — distinct
points `(0,0,0)` and `(1,0,0)` give a segment, and the z-axis line crossing
the plane `z = 0` in range gives no relation. -/
theorem C6_witness :
    connect_point3_point3 ⟨0, 0, 0⟩ ⟨1, 0, 0⟩ = .val (mkSeg3 ⟨1, 0, 0⟩ ⟨0, 0, 0⟩) ∧
    connect_line3_plane ⟨.line, ⟨0, 0, 0⟩, ⟨0, 0, 1⟩⟩ ⟨⟨0, 0, 1⟩, 0⟩ = .norel :=
  ⟨C6_touching_behaviour.2.1 ⟨0, 0, 0⟩ ⟨1, 0, 0⟩ (by norm_num),
   C6_touching_behaviour.2.2.2 ⟨.line, ⟨0, 0, 0⟩, ⟨0, 0, 1⟩⟩ ⟨⟨0, 0, 1⟩, 0⟩
     (by unfold dot3; norm_num) rfl⟩

/- ## C1: symmetry of the line2–line2 algorithms -/

/-- Reversing a two-point segment construction swaps its endpoints. -/
theorem revC2_mkSeg2 (a b : V2) : revC2 (mkSeg2 b a) = mkSeg2 a b := by
  unfold mkSeg2
  by_cases h : a.x - b.x = 0 ∧ a.y - b.y = 0
  · rw [if_pos h, if_pos ⟨by linarith [h.1], by linarith [h.2]⟩]
    rfl
  · have h' : ¬(b.x - a.x = 0 ∧ b.y - a.y = 0) := by
      intro hc
      exact h ⟨by linarith [hc.1], by linarith [hc.2]⟩
    rw [if_neg h, if_neg h']
    show CRes.val (swapSeg2 ⟨b, sub2 a b⟩) = CRes.val ⟨a, sub2 b a⟩
    congr 1
    unfold swapSeg2 add2 sub2
    ext <;> dsimp <;> ring

/-- The cross-determinant of the swapped call is the negation of the
original one. -/
theorem lineDet_swap (A B : L2) :
    A.v.y * B.v.x - A.v.x * B.v.y = -(B.v.y * A.v.x - B.v.x * A.v.y) := by
  ring

/-- The first parameter of the swapped call equals the second parameter of
the original call (true even when the determinant is zero, by `x/0 = 0`). -/
theorem lineUa_swap (A B : L2) :
    (A.v.x * (B.p.y - A.p.y) - A.v.y * (B.p.x - A.p.x)) /
        (A.v.y * B.v.x - A.v.x * B.v.y) =
      (A.v.x * (A.p.y - B.p.y) - A.v.y * (A.p.x - B.p.x)) /
        (B.v.y * A.v.x - B.v.x * A.v.y) := by
  rw [show A.v.x * (B.p.y - A.p.y) - A.v.y * (B.p.x - A.p.x) =
      -(A.v.x * (A.p.y - B.p.y) - A.v.y * (A.p.x - B.p.x)) from by ring,
    lineDet_swap A B, neg_div_neg_eq]

/-- The second parameter of the swapped call equals the first parameter of
the original call. -/
theorem lineUb_swap (A B : L2) :
    (B.v.x * (B.p.y - A.p.y) - B.v.y * (B.p.x - A.p.x)) /
        (A.v.y * B.v.x - A.v.x * B.v.y) =
      (B.v.x * (A.p.y - B.p.y) - B.v.y * (A.p.x - B.p.x)) /
        (B.v.y * A.v.x - B.v.x * A.v.y) := by
  rw [show B.v.x * (B.p.y - A.p.y) - B.v.y * (B.p.x - A.p.x) =
      -(B.v.x * (A.p.y - B.p.y) - B.v.y * (A.p.x - B.p.x)) from by ring,
    lineDet_swap A B, neg_div_neg_eq]

/-- With a non-zero determinant, the point computed on `A` at `ua` is the
point computed on `B` at `ub`: both are the common intersection point. -/
theorem lineIntersectionPoint_eq (A B : L2)
    (hd : B.v.y * A.v.x - B.v.x * A.v.y ≠ 0) :
    (⟨A.p.x + (B.v.x * (A.p.y - B.p.y) - B.v.y * (A.p.x - B.p.x)) /
        (B.v.y * A.v.x - B.v.x * A.v.y) * A.v.x,
      A.p.y + (B.v.x * (A.p.y - B.p.y) - B.v.y * (A.p.x - B.p.x)) /
        (B.v.y * A.v.x - B.v.x * A.v.y) * A.v.y⟩ : V2) =
    (⟨B.p.x + (A.v.x * (A.p.y - B.p.y) - A.v.y * (A.p.x - B.p.x)) /
        (B.v.y * A.v.x - B.v.x * A.v.y) * B.v.x,
      B.p.y + (A.v.x * (A.p.y - B.p.y) - A.v.y * (A.p.x - B.p.x)) /
        (B.v.y * A.v.x - B.v.x * A.v.y) * B.v.y⟩ : V2) := by
  ext
  · dsimp only
    field_simp
    ring
  · dsimp only
    field_simp
    ring

/-- C1 corrected: at the dispatch level `A.intersect(B)` and `B.intersect(A)`
are the two argument orders of `_intersect_line2_line2`, and `A.connect(B)`,
`B.connect(A)` those of `_connect_line2_line2`.  Intersection is fully
symmetric; the connect results are exact endpoint-swapped reverses whenever
the directions are not parallel (`d ≠ 0`). -/
theorem C1_line2_symmetry :
    (∀ A B : L2, intersect_line2_line2 A B = intersect_line2_line2 B A) ∧
    (∀ A B : L2, B.v.y * A.v.x - B.v.x * A.v.y ≠ 0 →
      connect_line2_line2 A B = revC2 (connect_line2_line2 B A)) := by
  constructor
  · intro A B
    unfold intersect_line2_line2
    by_cases hd : B.v.y * A.v.x - B.v.x * A.v.y = 0
    · rw [if_pos hd, if_pos (by rw [lineDet_swap]; rw [hd]; ring)]
    · have hd' : A.v.y * B.v.x - A.v.x * B.v.y ≠ 0 := by
        rw [lineDet_swap]
        exact neg_ne_zero.mpr hd
      rw [if_neg hd, if_neg hd']
      simp only [lineUa_swap A B, lineUb_swap A B]
      rw [lineIntersectionPoint_eq A B hd]
      split_ifs <;> rfl
  · intro A B hd
    have hd' : A.v.y * B.v.x - A.v.x * B.v.y ≠ 0 := by
      rw [lineDet_swap]
      exact neg_ne_zero.mpr hd
    unfold connect_line2_line2
    rw [if_neg hd, if_neg hd']
    simp only [lineUa_swap A B, lineUb_swap A B]
    rw [revC2_mkSeg2]

/-- C1 witness: the symmetry theorem applied to the concrete non-parallel
pair `Ray2((0,0) + u(1,0))`, `LineSegment2((2,-1) + u(0,1))`. -/
theorem C1_witness :
    intersect_line2_line2 ⟨.ray, ⟨0, 0⟩, ⟨1, 0⟩⟩ ⟨.seg, ⟨2, -1⟩, ⟨0, 1⟩⟩ =
      intersect_line2_line2 ⟨.seg, ⟨2, -1⟩, ⟨0, 1⟩⟩ ⟨.ray, ⟨0, 0⟩, ⟨1, 0⟩⟩ ∧
    ((⟨.seg, ⟨2, -1⟩, ⟨0, 1⟩⟩ : L2).v.y * (⟨.ray, ⟨0, 0⟩, ⟨1, 0⟩⟩ : L2).v.x -
        (⟨.seg, ⟨2, -1⟩, ⟨0, 1⟩⟩ : L2).v.x * (⟨.ray, ⟨0, 0⟩, ⟨1, 0⟩⟩ : L2).v.y ≠ 0) ∧
    connect_line2_line2 ⟨.ray, ⟨0, 0⟩, ⟨1, 0⟩⟩ ⟨.seg, ⟨2, -1⟩, ⟨0, 1⟩⟩ =
      revC2 (connect_line2_line2 ⟨.seg, ⟨2, -1⟩, ⟨0, 1⟩⟩ ⟨.ray, ⟨0, 0⟩, ⟨1, 0⟩⟩) :=
  ⟨C1_line2_symmetry.1 ⟨.ray, ⟨0, 0⟩, ⟨1, 0⟩⟩ ⟨.seg, ⟨2, -1⟩, ⟨0, 1⟩⟩,
   by norm_num,
   C1_line2_symmetry.2 ⟨.ray, ⟨0, 0⟩, ⟨1, 0⟩⟩ ⟨.seg, ⟨2, -1⟩, ⟨0, 1⟩⟩ (by norm_num)⟩

/-- C1 counterexample: for the parallel plain lines `A = (0,0)+u(1,0)` and
`B = (5,1)+u(1,0)`, `A.connect(B)` is the segment from `(0,0)` to `(0,1)`
while `B.connect(A)` reversed is the segment from `(5,0)` to `(5,1)` — the
two orders do not return the same segment with endpoints swapped. -/
theorem C1_counterexample :
    connect_line2_line2 ⟨.line, ⟨0, 0⟩, ⟨1, 0⟩⟩ ⟨.line, ⟨5, 1⟩, ⟨1, 0⟩⟩ =
      .val ⟨⟨0, 0⟩, ⟨0, 1⟩⟩ ∧
    revC2 (connect_line2_line2 ⟨.line, ⟨5, 1⟩, ⟨1, 0⟩⟩ ⟨.line, ⟨0, 0⟩, ⟨1, 0⟩⟩) =
      .val ⟨⟨5, 0⟩, ⟨0, 1⟩⟩ ∧
    (CRes.val (⟨⟨0, 0⟩, ⟨0, 1⟩⟩ : Seg2) ≠ .val ⟨⟨5, 0⟩, ⟨0, 1⟩⟩) := by
  refine ⟨?_, ?_, ?_⟩
  · norm_num [connect_line2_line2, connect_point2_line2, magsq2, clampParam, uIn,
      mkSeg2, sub2,
      show (LineKind.line = LineKind.ray ∨ LineKind.line = LineKind.seg) = False
        from by simp]
  · norm_num [connect_line2_line2, connect_point2_line2, magsq2, clampParam, uIn,
      mkSeg2, sub2, revC2, swapSeg2, add2,
      show (LineKind.line = LineKind.ray ∨ LineKind.line = LineKind.seg) = False
        from by simp]
  · intro h
    have h2 : (⟨⟨0, 0⟩, ⟨0, 1⟩⟩ : Seg2) = ⟨⟨5, 0⟩, ⟨0, 1⟩⟩ := by
      injection h
    have h3 : (⟨0, 0⟩ : V2) = ⟨5, 0⟩ := congrArg Seg2.p h2
    have h4 : (0 : ℝ) = 5 := congrArg V2.x h3
    norm_num at h4

/- ## C2: clamping in connect versus rejection in intersect -/

/-- C2 amended: the clamp `max(min(u,1),0)` applied by the connect
algorithms sends every out-of-range `u` to the nearest valid boundary (0 or
1 for segments, 0 for rays); line–line `intersect` instead returns no
relation when either unconstrained parameter is out of range; the line–line
connect algorithms (2D and 3D) compute their endpoints from the clamped
parameters — in 3D `ub` is even derived from the already clamped `ua`.
(Line–circle and line–sphere `intersect`, by contrast, clamp their roots —
see the counterexample.) -/
theorem C2_connect_clamps_intersect_rejects :
    (∀ (k : LineKind) (u : ℝ), uIn k u = false →
      clampParam k u = specNearestBoundary k u) ∧
    (∀ A B : L2, line2Det A B ≠ 0 →
      (uIn A.kind (line2Ua A B) = false ∨ uIn B.kind (line2Ub A B) = false) →
      intersect_line2_line2 A B = .norel) ∧
    (∀ A B : L2, line2Det A B ≠ 0 →
      connect_line2_line2 A B =
        mkSeg2 ⟨A.p.x + clampParam A.kind (line2Ua A B) * A.v.x,
                A.p.y + clampParam A.kind (line2Ua A B) * A.v.y⟩
               ⟨B.p.x + clampParam B.kind (line2Ub A B) * B.v.x,
                B.p.y + clampParam B.kind (line2Ub A B) * B.v.y⟩) ∧
    (∀ A B : L3, line3Denom A B ≠ 0 →
      connect_line3_line3 A B =
        .val (mkSeg3
          ⟨A.p.x + clampParam A.kind (line3Ua A B) * A.v.x,
           A.p.y + clampParam A.kind (line3Ua A B) * A.v.y,
           A.p.z + clampParam A.kind (line3Ua A B) * A.v.z⟩
          ⟨B.p.x + clampParam B.kind
              (line3Ub A B (clampParam A.kind (line3Ua A B))) * B.v.x,
           B.p.y + clampParam B.kind
              (line3Ub A B (clampParam A.kind (line3Ua A B))) * B.v.y,
           B.p.z + clampParam B.kind
              (line3Ub A B (clampParam A.kind (line3Ua A B))) * B.v.z⟩)) := by
  refine ⟨?_, ?_, ?_, ?_⟩
  · intro k u hu
    cases k with
    | line => exact absurd hu (by simp [uIn])
    | ray =>
      have h0 : u < 0 := by
        by_contra hc
        push_neg at hc
        exact absurd hu (by simp [uIn, hc])
      unfold clampParam specNearestBoundary
      rw [hu]
      simp only [Bool.false_eq_true, if_false]
      rw [min_eq_left (by linarith), max_eq_right (by linarith)]
    | seg =>
      have h0 : u < 0 ∨ 1 < u := by
        by_contra hc
        push_neg at hc
        exact absurd hu (by simp [uIn, hc.1, hc.2])
      unfold clampParam specNearestBoundary
      rw [hu]
      simp only [Bool.false_eq_true, if_false]
      rcases h0 with h0 | h0
      · rw [if_pos h0, min_eq_left (by linarith), max_eq_right (by linarith)]
      · rw [if_neg (by linarith), min_eq_right (by linarith),
          max_eq_left (by norm_num)]
  · intro A B hd hu
    unfold line2Det at hd
    unfold intersect_line2_line2
    rw [if_neg hd]
    unfold line2Ua line2Ub line2Det at hu
    rcases hu with hu | hu
    · simp only [hu, Bool.false_eq_true, if_false]
    · simp only [hu, Bool.false_eq_true, if_false]
      split_ifs <;> rfl
  · intro A B hd
    unfold line2Det at hd
    unfold connect_line2_line2 line2Ua line2Ub line2Det
    rw [if_neg hd]
  · intro A B hd
    unfold line3Denom at hd
    have hv : ¬((A.v.x = 0 ∧ A.v.y = 0 ∧ A.v.z = 0) ∨
        (B.v.x = 0 ∧ B.v.y = 0 ∧ B.v.z = 0)) := by
      rintro (⟨h1, h2, h3⟩ | ⟨h1, h2, h3⟩) <;> apply hd <;>
        unfold magsq3 dot3 <;> rw [h1, h2, h3] <;> ring
    unfold connect_line3_line3
    rw [if_neg hv, if_neg hd]
    unfold line3Ua line3Ub line3Denom
    rfl

/-- C2 witness: the amended theorem applied at concrete inputs — the
out-of-range parameter `u = 2` on a segment clamps to the boundary `1`; for
the segment `(0,0)+u(1,0)` against the vertical line through `(5,1)` the
unconstrained `ua = 5` is out of range, so intersect returns no relation
while connect clamps; the analogous 3D pair is connected from clamped
parameters. -/
theorem C2_witness :
    (uIn .seg (2 : ℝ) = false) ∧
    clampParam .seg (2 : ℝ) = specNearestBoundary .seg 2 ∧
    (line2Det ⟨.seg, ⟨0, 0⟩, ⟨1, 0⟩⟩ ⟨.line, ⟨5, 1⟩, ⟨0, 1⟩⟩ ≠ 0) ∧
    (uIn LineKind.seg (line2Ua ⟨.seg, ⟨0, 0⟩, ⟨1, 0⟩⟩ ⟨.line, ⟨5, 1⟩, ⟨0, 1⟩⟩) = false) ∧
    intersect_line2_line2 ⟨.seg, ⟨0, 0⟩, ⟨1, 0⟩⟩ ⟨.line, ⟨5, 1⟩, ⟨0, 1⟩⟩ = .norel ∧
    connect_line2_line2 ⟨.seg, ⟨0, 0⟩, ⟨1, 0⟩⟩ ⟨.line, ⟨5, 1⟩, ⟨0, 1⟩⟩ =
      mkSeg2 ⟨0 + clampParam .seg (line2Ua ⟨.seg, ⟨0, 0⟩, ⟨1, 0⟩⟩ ⟨.line, ⟨5, 1⟩, ⟨0, 1⟩⟩) * 1,
              0 + clampParam .seg (line2Ua ⟨.seg, ⟨0, 0⟩, ⟨1, 0⟩⟩ ⟨.line, ⟨5, 1⟩, ⟨0, 1⟩⟩) * 0⟩
             ⟨5 + clampParam .line (line2Ub ⟨.seg, ⟨0, 0⟩, ⟨1, 0⟩⟩ ⟨.line, ⟨5, 1⟩, ⟨0, 1⟩⟩) * 0,
              1 + clampParam .line (line2Ub ⟨.seg, ⟨0, 0⟩, ⟨1, 0⟩⟩ ⟨.line, ⟨5, 1⟩, ⟨0, 1⟩⟩) * 1⟩ ∧
    (line3Denom ⟨.seg, ⟨0, 0, 0⟩, ⟨1, 0, 0⟩⟩ ⟨.line, ⟨5, 1, 0⟩, ⟨0, 1, 0⟩⟩ ≠ 0) := by
  have h1 : uIn .seg (2 : ℝ) = false := by
    simp [uIn]
  have h3 : line2Det ⟨.seg, ⟨0, 0⟩, ⟨1, 0⟩⟩ (⟨.line, ⟨5, 1⟩, ⟨0, 1⟩⟩ : L2) ≠ 0 := by
    unfold line2Det
    norm_num
  have h4 : uIn LineKind.seg
      (line2Ua ⟨.seg, ⟨0, 0⟩, ⟨1, 0⟩⟩ ⟨.line, ⟨5, 1⟩, ⟨0, 1⟩⟩) = false := by
    have : line2Ua ⟨.seg, ⟨0, 0⟩, ⟨1, 0⟩⟩ (⟨.line, ⟨5, 1⟩, ⟨0, 1⟩⟩ : L2) = 5 := by
      unfold line2Ua line2Det
      norm_num
    rw [this]
    simp [uIn]
  have h7 : line3Denom ⟨.seg, ⟨0, 0, 0⟩, ⟨1, 0, 0⟩⟩
      (⟨.line, ⟨5, 1, 0⟩, ⟨0, 1, 0⟩⟩ : L3) ≠ 0 := by
    unfold line3Denom magsq3 dot3
    norm_num
  exact ⟨h1, C2_connect_clamps_intersect_rejects.1 .seg 2 h1, h3, h4,
    C2_connect_clamps_intersect_rejects.2.1 _ _ h3 (Or.inl h4),
    C2_connect_clamps_intersect_rejects.2.2.1 _ _ h3, h7⟩

/- ## C2/C3: evaluations of the line–circle and line–sphere quadratics -/

/-- For the segment `(5,0)+u(1,0)` and the circle of radius 3 at the origin
both roots (`u = -2`, `u = -8`) are out of range; the intersect algorithm
clamps both to `0`, takes the tangency branch, and returns the point
`(5,0)` — which does not even lie on the circle. -/
theorem line2_circle_clamped_eval :
    intersect_line2_circle ⟨.seg, ⟨5, 0⟩, ⟨1, 0⟩⟩ ⟨⟨0, 0⟩, 3⟩ = .pt ⟨5, 0⟩ := by
  have hdet : lcDet ⟨.seg, ⟨5, 0⟩, ⟨1, 0⟩⟩ (⟨⟨0, 0⟩, 3⟩ : Circ) = 36 := by
    unfold lcDet lcA lcB lcC magsq2 dot2
    norm_num
  unfold intersect_line2_circle
  rw [hdet, show Real.sqrt 36 = 6 from by
    rw [show (36 : ℝ) = 6 ^ 2 by norm_num, Real.sqrt_sq (by norm_num)]]
  norm_num [lcA, lcB, magsq2, clampParam, uIn]

/-- C2 counterexample: for a bounded operand whose solution parameters all
fail `u_in`, line–circle `intersect` does not return "no relation" — it
clamps the roots like connect does, here producing the (spurious) tangency
point `(5,0)`. -/
theorem C2_counterexample :
    intersect_line2_circle ⟨.seg, ⟨5, 0⟩, ⟨1, 0⟩⟩ ⟨⟨0, 0⟩, 3⟩ = .pt ⟨5, 0⟩ ∧
    (LCRes.pt ⟨5, 0⟩ ≠ .norel) := by
  refine ⟨line2_circle_clamped_eval, ?_⟩
  simp

/-- Chord evaluation: the line through `(-5,0)` and `(5,0)` against the
circle of radius 3 at the origin yields the segment whose first endpoint is
`(3,0)` (the `(-b + √det)` root) and whose second is `(-3,0)`. -/
theorem line2_circle_chord_eval :
    intersect_line2_circle ⟨.line, ⟨-5, 0⟩, ⟨10, 0⟩⟩ ⟨⟨0, 0⟩, 3⟩ =
      .seg ⟨⟨3, 0⟩, ⟨-6, 0⟩⟩ := by
  have hdet : lcDet ⟨.line, ⟨-5, 0⟩, ⟨10, 0⟩⟩ (⟨⟨0, 0⟩, 3⟩ : Circ) = 3600 := by
    unfold lcDet lcA lcB lcC magsq2 dot2
    norm_num
  unfold intersect_line2_circle
  rw [hdet, show Real.sqrt 3600 = 60 from by
    rw [show (3600 : ℝ) = 60 ^ 2 by norm_num, Real.sqrt_sq (by norm_num)]]
  norm_num [lcA, lcB, magsq2, clampParam, uIn, mkSeg2, sub2]

/-- Tangency evaluation in 3D: the same configuration lifted to
`_intersect_line3_sphere` (tangent line at height 3) returns a zero-length
`LineSegment3`, not a point — the 3D routine has no `u1 == u2` check. -/
theorem line3_sphere_tangent_eval :
    intersect_line3_sphere ⟨.line, ⟨-5, 3, 0⟩, ⟨10, 0, 0⟩⟩ ⟨⟨0, 0, 0⟩, 3⟩ =
      .val ⟨⟨0, 3, 0⟩, ⟨0, 0, 0⟩⟩ := by
  have hdet : lsDet ⟨.line, ⟨-5, 3, 0⟩, ⟨10, 0, 0⟩⟩ (⟨⟨0, 0, 0⟩, 3⟩ : Sph) = 0 := by
    unfold lsDet lsA lsB lsC magsq3 dot3
    norm_num
  unfold intersect_line3_sphere
  rw [hdet, Real.sqrt_zero]
  norm_num [lsA, lsB, magsq3, clampParam, uIn, mkSeg3, sub3]

/-- C3 corrected: the general discriminant policy of
`_intersect_line2_circle`, and the three concrete configurations.  The chord
is returned with the `(-b + √det)/(2a)` root first, i.e. as the segment from
`(3,0)` to `(-3,0)`. -/
theorem C3_line_circle_quadratic :
    (∀ (L : L2) (C : Circ), lcDet L C < 0 → intersect_line2_circle L C = .norel) ∧
    (∀ (L : L2) (C : Circ), lcDet L C = 0 → intersect_line2_circle L C =
      .pt ⟨L.p.x + clampParam L.kind (-lcB L C / (2 * lcA L)) * L.v.x,
           L.p.y + clampParam L.kind (-lcB L C / (2 * lcA L)) * L.v.y⟩) ∧
    (∀ (L : L2) (C : Circ), L.kind = .line → lcA L ≠ 0 → 0 < lcDet L C →
      intersect_line2_circle L C =
        .seg ⟨⟨L.p.x + (-lcB L C + Real.sqrt (lcDet L C)) / (2 * lcA L) * L.v.x,
               L.p.y + (-lcB L C + Real.sqrt (lcDet L C)) / (2 * lcA L) * L.v.y⟩,
              sub2 ⟨L.p.x + (-lcB L C - Real.sqrt (lcDet L C)) / (2 * lcA L) * L.v.x,
                    L.p.y + (-lcB L C - Real.sqrt (lcDet L C)) / (2 * lcA L) * L.v.y⟩
                   ⟨L.p.x + (-lcB L C + Real.sqrt (lcDet L C)) / (2 * lcA L) * L.v.x,
                    L.p.y + (-lcB L C + Real.sqrt (lcDet L C)) / (2 * lcA L) * L.v.y⟩⟩) ∧
    intersect_line2_circle ⟨.line, ⟨-5, 0⟩, ⟨10, 0⟩⟩ ⟨⟨0, 0⟩, 3⟩ =
      .seg ⟨⟨3, 0⟩, ⟨-6, 0⟩⟩ ∧
    intersect_line2_circle ⟨.line, ⟨-5, 0⟩, ⟨10, 0⟩⟩ ⟨⟨0, 5⟩, 1⟩ = .norel ∧
    intersect_line2_circle ⟨.line, ⟨-5, 3⟩, ⟨10, 0⟩⟩ ⟨⟨0, 0⟩, 3⟩ = .pt ⟨0, 3⟩ := by
  refine ⟨?_, ?_, ?_, line2_circle_chord_eval, ?_, ?_⟩
  · intro L C h
    unfold intersect_line2_circle
    rw [if_pos h]
  · intro L C h
    unfold intersect_line2_circle
    rw [h, Real.sqrt_zero]
    norm_num
  · intro L C hkind ha hdet
    have hclamp : ∀ u : ℝ, clampParam L.kind u = u := by
      intro u
      rw [hkind]
      simp [clampParam, uIn]
    have hs : Real.sqrt (lcDet L C) ≠ 0 := Real.sqrt_ne_zero'.mpr hdet
    have h2a : (2 : ℝ) * lcA L ≠ 0 := mul_ne_zero two_ne_zero ha
    have hne : (-lcB L C + Real.sqrt (lcDet L C)) / (2 * lcA L) ≠
        (-lcB L C - Real.sqrt (lcDet L C)) / (2 * lcA L) := by
      intro he
      apply hs
      field_simp [h2a] at he
      linarith
    have hveq : ¬(L.v.x = 0 ∧ L.v.y = 0) := by
      rintro ⟨h1, h2⟩
      apply ha
      unfold lcA magsq2
      rw [h1, h2]
      ring
    have hdiff : (-lcB L C + Real.sqrt (lcDet L C)) / (2 * lcA L) -
        (-lcB L C - Real.sqrt (lcDet L C)) / (2 * lcA L) ≠ 0 :=
      sub_ne_zero_of_ne hne
    have hcond : ¬((L.p.x + (-lcB L C - Real.sqrt (lcDet L C)) / (2 * lcA L) * L.v.x) -
          (L.p.x + (-lcB L C + Real.sqrt (lcDet L C)) / (2 * lcA L) * L.v.x) = 0 ∧
        (L.p.y + (-lcB L C - Real.sqrt (lcDet L C)) / (2 * lcA L) * L.v.y) -
          (L.p.y + (-lcB L C + Real.sqrt (lcDet L C)) / (2 * lcA L) * L.v.y) = 0) := by
      rintro ⟨h1, h2⟩
      apply hveq
      constructor
      · have h1' : ((-lcB L C - Real.sqrt (lcDet L C)) / (2 * lcA L) -
            (-lcB L C + Real.sqrt (lcDet L C)) / (2 * lcA L)) * L.v.x = 0 := by
          linarith [h1]
        rcases mul_eq_zero.mp h1' with hc | hc
        · exact absurd (by linarith : (-lcB L C + Real.sqrt (lcDet L C)) / (2 * lcA L) -
            (-lcB L C - Real.sqrt (lcDet L C)) / (2 * lcA L) = 0) hdiff
        · exact hc
      · have h2' : ((-lcB L C - Real.sqrt (lcDet L C)) / (2 * lcA L) -
            (-lcB L C + Real.sqrt (lcDet L C)) / (2 * lcA L)) * L.v.y = 0 := by
          linarith [h2]
        rcases mul_eq_zero.mp h2' with hc | hc
        · exact absurd (by linarith : (-lcB L C + Real.sqrt (lcDet L C)) / (2 * lcA L) -
            (-lcB L C - Real.sqrt (lcDet L C)) / (2 * lcA L) = 0) hdiff
        · exact hc
    unfold intersect_line2_circle
    rw [if_neg (not_lt.mpr hdet.le)]
    simp only [hclamp]
    rw [if_neg hne]
    unfold mkSeg2
    rw [if_neg hcond]
  · have hdet : lcDet ⟨.line, ⟨-5, 0⟩, ⟨10, 0⟩⟩ (⟨⟨0, 5⟩, 1⟩ : Circ) = -9600 := by
      unfold lcDet lcA lcB lcC magsq2 dot2
      norm_num
    unfold intersect_line2_circle
    rw [hdet]
    norm_num
  · have hdet : lcDet ⟨.line, ⟨-5, 3⟩, ⟨10, 0⟩⟩ (⟨⟨0, 0⟩, 3⟩ : Circ) = 0 := by
      unfold lcDet lcA lcB lcC magsq2 dot2
      norm_num
    unfold intersect_line2_circle
    rw [hdet, Real.sqrt_zero]
    norm_num [lcA, lcB, magsq2, clampParam, uIn]

/-- C3 witness: the general policy applied at concrete inputs — a
discriminant of `-9600` gives no relation, and a positive-discriminant
configuration (`det = 3600`) gives a chord. -/
theorem C3_witness :
    (lcDet ⟨.line, ⟨-5, 0⟩, ⟨10, 0⟩⟩ ⟨⟨0, 5⟩, 1⟩ < 0) ∧
    intersect_line2_circle ⟨.line, ⟨-5, 0⟩, ⟨10, 0⟩⟩ ⟨⟨0, 5⟩, 1⟩ = .norel ∧
    (lcA ⟨.line, ⟨-5, 0⟩, ⟨10, 0⟩⟩ ≠ 0) ∧
    (0 < lcDet ⟨.line, ⟨-5, 0⟩, ⟨10, 0⟩⟩ ⟨⟨0, 0⟩, 3⟩) := by
  have h1 : lcDet ⟨.line, ⟨-5, 0⟩, ⟨10, 0⟩⟩ (⟨⟨0, 5⟩, 1⟩ : Circ) < 0 := by
    unfold lcDet lcA lcB lcC magsq2 dot2
    norm_num
  exact ⟨h1, C3_line_circle_quadratic.1 _ _ h1,
    by unfold lcA magsq2; norm_num,
    by unfold lcDet lcA lcB lcC magsq2 dot2; norm_num⟩

/-- C3 counterexample: the first concrete configuration returns the segment
from `(3,0)` to `(-3,0)` — not "the LineSegment from `(-3,0)` to `(3,0)`"
claimed — and the tangent configuration against a sphere returns a
zero-length segment rather than a single point. -/
theorem C3_counterexample :
    intersect_line2_circle ⟨.line, ⟨-5, 0⟩, ⟨10, 0⟩⟩ ⟨⟨0, 0⟩, 3⟩ =
      .seg ⟨⟨3, 0⟩, ⟨-6, 0⟩⟩ ∧
    (LCRes.seg ⟨⟨3, 0⟩, ⟨-6, 0⟩⟩ ≠ .seg ⟨⟨-3, 0⟩, ⟨6, 0⟩⟩) ∧
    intersect_line3_sphere ⟨.line, ⟨-5, 3, 0⟩, ⟨10, 0, 0⟩⟩ ⟨⟨0, 0, 0⟩, 3⟩ =
      .val ⟨⟨0, 3, 0⟩, ⟨0, 0, 0⟩⟩ := by
  refine ⟨line2_circle_chord_eval, ?_, line3_sphere_tangent_eval⟩
  intro h
  have h2 : (⟨⟨3, 0⟩, ⟨-6, 0⟩⟩ : Seg2) = ⟨⟨-3, 0⟩, ⟨6, 0⟩⟩ := by
    injection h
  have h3 : (3 : ℝ) = -3 := congrArg V2.x (congrArg Seg2.p h2)
  norm_num at h3

/- ## C7: quaternion spherical interpolation -/

/-- `arccos c` is not below the 0.01 threshold when `c` is safely below
`cos 0.01`. -/
theorem arccos_not_small (c : ℝ) (h1 : -1 ≤ c) (h2 : c < 0.99995) :
    ¬ |Real.arccos c| < 0.01 := by
  intro h
  rw [abs_of_nonneg (Real.arccos_nonneg c)] at h
  have hc1 : c ≤ 1 := le_trans h2.le (by norm_num)
  have hcos : Real.cos (Real.arccos c) = c := Real.cos_arccos h1 hc1
  have hle : Real.cos 0.01 ≤ Real.cos (Real.arccos c) :=
    Real.cos_le_cos_of_nonneg_of_le_pi (Real.arccos_nonneg c)
      (by linarith [Real.pi_gt_three]) h.le
  have hb : (0.99995 : ℝ) ≤ Real.cos 0.01 := by
    have hq := Real.one_sub_sq_div_two_le_cos (x := (0.01 : ℝ))
    norm_num at hq
    linarith
  linarith

/-- At `t = 0`, away from both small-angle thresholds, the sine-ratio blend
returns the (possibly conjugated) start quaternion `q1` exactly. -/
theorem slerpCore_t0 (q1 q2 : Quat) (c : ℝ) (h1 : -1 ≤ c) (h2 : c ≤ 0.999)
    (h3 : -0.999 ≤ c) : slerpCore q1 q2 c 0 = q1 := by
  simp only [slerpCore]
  rw [show (1 : ℝ) - c * c = 1 - c ^ 2 from by ring]
  rw [if_neg (arccos_not_small c h1 (by linarith))]
  have hcsq : 1 - c ^ 2 ≥ 0.001999 := by nlinarith
  have hs : (0.01 : ℝ) ≤ Real.sqrt (1 - c ^ 2) := by
    rw [Real.le_sqrt (by norm_num) (by linarith)]
    linarith
  have hsne : Real.sqrt (1 - c ^ 2) ≠ 0 := by
    intro h0
    rw [h0] at hs
    norm_num at hs
  rw [if_neg (by rw [abs_of_nonneg (Real.sqrt_nonneg _)]; linarith)]
  have hsin : Real.sin ((1 - 0) * Real.arccos c) = Real.sqrt (1 - c ^ 2) := by
    rw [show ((1 : ℝ) - 0) * Real.arccos c = Real.arccos c from by ring,
      Real.sin_arccos]
  have hzero : Real.sin (0 * Real.arccos c) = 0 := by
    rw [zero_mul, Real.sin_zero]
  ext <;> dsimp only <;>
    rw [hsin, hzero, div_self hsne, zero_div] <;> ring

/-- C7 corrected: the branch behaviour of `new_interpolate` — a negative
dot product conjugates `q1` (it does not negate it); a dot product above 1
is clamped, making `theta = arccos 1 = 0` so the endpoint `q2` is returned;
a small `theta` returns `q2`; a small `sintheta` returns the fixed
componentwise midpoint `(q1+q2)/2`, independent of `t`. -/
theorem C7_interpolate_behaviour :
    (∀ (q1 q2 : Quat) (t : ℝ), qdot q1 q2 < 0 →
      new_interpolate q1 q2 t = slerpCore (conjugated q1) q2 (-qdot q1 q2) t) ∧
    (∀ (q1 q2 : Quat) (t : ℝ), 1 < qdot q1 q2 → new_interpolate q1 q2 t = q2) ∧
    (∀ (q1 q2 : Quat) (c t : ℝ), |Real.arccos c| < 0.01 →
      slerpCore q1 q2 c t = q2) ∧
    (∀ (q1 q2 : Quat) (c t : ℝ), ¬|Real.arccos c| < 0.01 →
      |Real.sqrt (1 - c * c)| < 0.01 →
      slerpCore q1 q2 c t =
        ⟨(q1.w + q2.w) * 0.5, (q1.x + q2.x) * 0.5, (q1.y + q2.y) * 0.5,
         (q1.z + q2.z) * 0.5⟩) := by
  refine ⟨?_, ?_, ?_, ?_⟩
  · intro q1 q2 t h
    simp only [new_interpolate]
    rw [if_pos h]
  · intro q1 q2 t h
    simp only [new_interpolate]
    rw [if_neg (not_lt.mpr (by linarith)), if_pos h]
    simp only [slerpCore]
    rw [Real.arccos_one, if_pos (by norm_num)]
  · intro q1 q2 c t h
    simp only [slerpCore]
    rw [if_pos h]
  · intro q1 q2 c t h hsmall
    simp only [slerpCore]
    rw [if_neg h, if_pos hsmall]

/-- C7 witness: the branch theorem applied at concrete inputs for each
branch — a negative dot product (`-1`), a clamped dot product (`2`), a
near-zero angle (`c = 1`), and the narrow small-`sintheta` window
(`c = 0.9999499995`). -/
theorem C7_witness :
    (qdot ⟨0, 1, 0, 0⟩ ⟨0, -1, 0, 0⟩ < 0) ∧
    new_interpolate ⟨0, 1, 0, 0⟩ ⟨0, -1, 0, 0⟩ (1/2) =
      slerpCore (conjugated ⟨0, 1, 0, 0⟩) ⟨0, -1, 0, 0⟩
        (-qdot ⟨0, 1, 0, 0⟩ ⟨0, -1, 0, 0⟩) (1/2) ∧
    ((1 : ℝ) < qdot ⟨1, 0, 0, 0⟩ ⟨2, 0, 0, 0⟩) ∧
    new_interpolate ⟨1, 0, 0, 0⟩ ⟨2, 0, 0, 0⟩ (1/3) = ⟨2, 0, 0, 0⟩ ∧
    slerpCore ⟨1, 0, 0, 0⟩ ⟨5, 6, 7, 8⟩ 1 (1/4) = ⟨5, 6, 7, 8⟩ ∧
    slerpCore ⟨1, 0, 0, 0⟩ ⟨0.9999499995, 0, 0, 0⟩ 0.9999499995 (1/4) =
      ⟨(1 + 0.9999499995) * 0.5, (0 + 0) * 0.5, (0 + 0) * 0.5, (0 + 0) * 0.5⟩ := by
  have hd1 : qdot ⟨0, 1, 0, 0⟩ (⟨0, -1, 0, 0⟩ : Quat) < 0 := by
    unfold qdot
    norm_num
  have hd2 : (1 : ℝ) < qdot ⟨1, 0, 0, 0⟩ ⟨2, 0, 0, 0⟩ := by
    unfold qdot
    norm_num
  have hth : ¬|Real.arccos 0.9999499995| < 0.01 :=
    arccos_not_small 0.9999499995 (by norm_num) (by norm_num)
  have hsm : |Real.sqrt (1 - (0.9999499995 : ℝ) * 0.9999499995)| < 0.01 := by
    rw [abs_of_nonneg (Real.sqrt_nonneg _), Real.sqrt_lt' (by norm_num)]
    norm_num
  exact ⟨hd1, C7_interpolate_behaviour.1 _ _ (1/2) hd1, hd2,
    C7_interpolate_behaviour.2.1 _ _ (1/3) hd2,
    C7_interpolate_behaviour.2.2.1 ⟨1, 0, 0, 0⟩ ⟨5, 6, 7, 8⟩ 1 (1/4)
      (by rw [Real.arccos_one]; norm_num),
    C7_interpolate_behaviour.2.2.2 ⟨1, 0, 0, 0⟩ ⟨0.9999499995, 0, 0, 0⟩
      0.9999499995 (1/4) hth hsm⟩

/-- C7 counterexample: with `q1 = (1,1,0,0)`, `q2 = (0,-1/2,0,0)`, `t = 0`
the dot product is `-1/2 < 0` and the source returns the conjugate
`(1,-1,0,0)` of `q1`; the spec's "negate one quaternion" would give
`(-1,-1,0,0)`.  The two disagree in the scalar component. -/
theorem C7_counterexample :
    new_interpolate ⟨1, 1, 0, 0⟩ ⟨0, -1/2, 0, 0⟩ 0 = ⟨1, -1, 0, 0⟩ ∧
    new_interpolate_specNegate ⟨1, 1, 0, 0⟩ ⟨0, -1/2, 0, 0⟩ 0 = ⟨-1, -1, 0, 0⟩ ∧
    ((⟨1, -1, 0, 0⟩ : Quat) ≠ ⟨-1, -1, 0, 0⟩) := by
  have hdot : qdot ⟨1, 1, 0, 0⟩ ⟨0, -1/2, 0, 0⟩ = -(1/2) := by
    unfold qdot
    norm_num
  refine ⟨?_, ?_, ?_⟩
  · simp only [new_interpolate]
    rw [hdot, if_pos (by norm_num)]
    rw [show conjugated ⟨1, 1, 0, 0⟩ = ⟨1, -1, 0, 0⟩ from by unfold conjugated; norm_num,
      show -(-(1/2) : ℝ) = 1/2 from by norm_num]
    exact slerpCore_t0 _ _ _ (by norm_num) (by norm_num) (by norm_num)
  · simp only [new_interpolate_specNegate]
    rw [hdot, if_pos (by norm_num)]
    rw [show qneg ⟨1, 1, 0, 0⟩ = ⟨-1, -1, 0, 0⟩ from by unfold qneg; norm_num,
      show -(-(1/2) : ℝ) = 1/2 from by norm_num]
    exact slerpCore_t0 _ _ _ (by norm_num) (by norm_num) (by norm_num)
  · intro h
    have hw : (1 : ℝ) = -1 := congrArg Quat.w h
    norm_num at hw

end

end Phlox
